import Mathlib

/-!
Verification of the interpolation engine and document merge/validation
pipeline of the haddock compose-file processor (src/compose.rs and
src/commands/convert.rs), via a shallow embedding in Lean.

The process environment is modelled as a read interface
`Env : String → Option String` (`env::var` succeeding exactly on `some`).
-/

/-- The process environment, as a read interface: `env::var(name)` succeeds
exactly when the function returns `some`. -/
def Env : Type := String → Option String

/-- Point update of an environment, modelling `env::set_var`. -/
def Env.set (e : Env) (k v : String) : Env :=
  fun n => if n = k then some v else e n

/-- `parser::State`: which existence test gates an operator
(`:` selects `setAndNonEmpty`). -/
inductive VState where
  | set
  | setAndNonEmpty
  deriving Repr, DecidableEq

mutual

/-- `parser::Token`: literal text or a variable reference with an optional
operator. -/
inductive Token where
  | str : String → Token
  | var : String → Option Var → Token

/-- `parser::Var`: the three expansion operators, each carrying a `VState`
presence test and a nested token sequence. -/
inductive Var where
  | default : VState → List Token → Var
  | err : VState → List Token → Var
  | replace : VState → List Token → Var

end

/-- The presence test applied by every operator in `evaluate`
(src/compose.rs lines 21-30, 32-41, 51-60): `State::Set` is a bare
`env::var`, `State::SetAndNonEmpty` additionally rejects the empty string. -/
def presenceTest (env : Env) (st : VState) (name : String) : Option String :=
  match st with
  | .set => env name
  | .setAndNonEmpty => (env name).bind (fun v => if v.isEmpty then none else some v)

mutual

/-- `evaluate` from src/compose.rs lines 15-74: resolve a token sequence
against the environment, concatenating per-token results in order, the first
error aborting. -/
def evaluate (env : Env) : List Token → Except String String
  | [] => Except.ok ""
  | t :: ts =>
    match evalToken env t with
    | Except.error e => Except.error e
    | Except.ok s =>
      match evaluate env ts with
      | Except.error e => Except.error e
      | Except.ok rest => Except.ok (s ++ rest)

/-- The per-token closure inside `evaluate` (src/compose.rs lines 18-70). -/
def evalToken (env : Env) : Token → Except String String
  | .str s => Except.ok s
  | .var name none => Except.ok ((env name).getD "")
  | .var name (some (.default st ts)) =>
    match presenceTest env st name with
    | some v => Except.ok v
    | none => evaluate env ts
  | .var name (some (.err st ts)) =>
    match presenceTest env st name with
    | some v => Except.ok v
    | none =>
      match evaluate env ts with
      | Except.error e => Except.error e
      | Except.ok msg =>
        if msg.isEmpty then
          Except.error ("Required variable \"" ++ name ++ "\" is missing a value")
        else
          Except.error ("Required variable \"" ++ name ++ "\" is missing a value: " ++ msg)
  | .var name (some (.replace st ts)) =>
    match presenceTest env st name with
    | some _ => evaluate env ts
    | none => Except.ok ""

end

/-- The empty environment. -/
def envEmpty : Env := fun _ => none

/-- The empty environment extended with one binding, for concrete instances. -/
def envOne (k v : String) : Env := envEmpty.set k v

theorem evaluate_singleton (env : Env) (t : Token) :
    evaluate env [t] = (evalToken env t).map (fun s => s ++ "") := by
  cases h : evalToken env t <;> simp [evaluate, h, Except.map]

theorem evaluate_singleton_ok (env : Env) (t : Token) (s : String)
    (h : evalToken env t = Except.ok s) : evaluate env [t] = Except.ok s := by
  simp [evaluate, h]

theorem evaluate_singleton_error (env : Env) (t : Token) (e : String)
    (h : evalToken env t = Except.error e) : evaluate env [t] = Except.error e := by
  simp [evaluate, h]

/-- C1: for a variable reference carrying the `RequireOrFail` operator
(`Var::Err`), `evaluate` returns the environment value when the presence test
succeeds; otherwise it recursively evaluates the message tokens and fails with
exactly `Required variable "NAME" is missing a value` when the evaluated
message is empty, and with exactly
`Required variable "NAME" is missing a value: <message>` when it is not. -/
theorem requireOrFail_spec (env : Env) (name : String) (st : VState) (ts : List Token) :
    (∀ v, presenceTest env st name = some v →
      evaluate env [Token.var name (some (Var.err st ts))] = Except.ok v)
    ∧ (presenceTest env st name = none →
      ∀ msg, evaluate env ts = Except.ok msg →
        evaluate env [Token.var name (some (Var.err st ts))] =
          Except.error (if msg.isEmpty
            then "Required variable \"" ++ name ++ "\" is missing a value"
            else "Required variable \"" ++ name ++ "\" is missing a value: " ++ msg)) := by
  constructor
  · intro v hv
    exact evaluate_singleton_ok env _ v (by simp [evalToken, hv])
  · intro hnone msg hmsg
    refine evaluate_singleton_error env _ _ ?_
    by_cases hm : msg.isEmpty <;> simp [evalToken, hnone, hmsg, hm]

/-- Witness for C1 at concrete inputs: `${VAR?}` and `${VAR?msg}` with `VAR`
unset. -/
theorem requireOrFail_spec_witness :
    evaluate envEmpty [Token.var "VAR" (some (Var.err VState.set []))]
      = Except.error "Required variable \"VAR\" is missing a value"
    ∧ evaluate envEmpty [Token.var "VAR" (some (Var.err VState.set [Token.str "msg"]))]
      = Except.error "Required variable \"VAR\" is missing a value: msg"
    ∧ evaluate (envOne "VAR" "woop") [Token.var "VAR" (some (Var.err VState.set []))]
      = Except.ok "woop" := by
  refine ⟨?_, ?_, ?_⟩
  · simpa using (requireOrFail_spec envEmpty "VAR" VState.set []).2 rfl "" rfl
  · simpa using (requireOrFail_spec envEmpty "VAR" VState.set [Token.str "msg"]).2 rfl "msg" rfl
  · exact (requireOrFail_spec (envOne "VAR" "woop") "VAR" VState.set []).1 "woop" rfl

/-- C2: for a variable reference carrying the `Default` operator, `evaluate`
uses the environment value when the presence test succeeds (`Set`: merely
defined; `SetAndNonEmpty`: defined and non-empty), and otherwise returns the
result of recursively evaluating the fallback token sequence. -/
theorem default_spec (env : Env) (name : String) (st : VState) (fallback : List Token) :
    (∀ v, presenceTest env st name = some v →
      evaluate env [Token.var name (some (Var.default st fallback))] = Except.ok v)
    ∧ (presenceTest env st name = none →
      evaluate env [Token.var name (some (Var.default st fallback))] = evaluate env fallback)
    ∧ presenceTest env VState.set name = env name
    ∧ (∀ v, presenceTest env VState.setAndNonEmpty name = some v ↔
        env name = some v ∧ ¬v.isEmpty) := by
  refine ⟨?_, ?_, ?_, ?_⟩
  · intro v hv
    exact evaluate_singleton_ok env _ v (by simp [evalToken, hv])
  · intro hnone
    have h : evalToken env (Token.var name (some (Var.default st fallback)))
        = evaluate env fallback := by
      simp [evalToken, hnone]
    rw [evaluate_singleton, h]
    cases evaluate env fallback <;> simp [Except.map]
  · rfl
  · intro v
    cases h : env name with
    | none => simp [presenceTest, h]
    | some w =>
      by_cases hw : w.isEmpty <;>
        simp [presenceTest, h, hw] <;>
        exact fun he => by subst he; simp_all

/-- Witness for C2 at concrete inputs: `${VAR:-default}` with `VAR=""` gives
`default`, with `VAR="woop"` gives `woop`, and a fallback containing a nested
variable reference resolves it. -/
theorem default_spec_witness :
    evaluate (envOne "VAR" "") [Token.var "VAR" (some (Var.default VState.setAndNonEmpty [Token.str "default"]))]
      = Except.ok "default"
    ∧ evaluate (envOne "VAR" "woop") [Token.var "VAR" (some (Var.default VState.setAndNonEmpty [Token.str "default"]))]
      = Except.ok "woop"
    ∧ evaluate (envOne "DEF" "woop") [Token.var "VAR" (some (Var.default VState.set [Token.var "DEF" none]))]
      = Except.ok "woop" := by
  refine ⟨?_, ?_, ?_⟩
  · have h := (default_spec (envOne "VAR" "") "VAR" VState.setAndNonEmpty [Token.str "default"]).2.1 rfl
    simpa using h
  · exact (default_spec (envOne "VAR" "woop") "VAR" VState.setAndNonEmpty [Token.str "default"]).1 "woop" rfl
  · have h := (default_spec (envOne "DEF" "woop") "VAR" VState.set [Token.var "DEF" none]).2.1 rfl
    simpa using h

/-- C3: for a variable reference carrying the `ReplaceIfPresent` operator
(`Var::Replace`), `evaluate` returns the result of recursively evaluating the
replacement tokens when the presence test succeeds, and the empty string
otherwise; the variable's own value is never used. -/
theorem replaceIfPresent_spec (env : Env) (name : String) (st : VState) (repl : List Token) :
    ((presenceTest env st name).isSome →
      evaluate env [Token.var name (some (Var.replace st repl))] = evaluate env repl)
    ∧ (presenceTest env st name = none →
      evaluate env [Token.var name (some (Var.replace st repl))] = Except.ok "") := by
  constructor
  · intro hsome
    obtain ⟨v, hv⟩ := Option.isSome_iff_exists.mp hsome
    have h : evalToken env (Token.var name (some (Var.replace st repl)))
        = evaluate env repl := by
      simp [evalToken, hv]
    rw [evaluate_singleton, h]
    cases evaluate env repl <;> simp [Except.map]
  · intro hnone
    exact evaluate_singleton_ok env _ "" (by simp [evalToken, hnone])

/-- Witness for C3 at concrete inputs: `${VAR+replacement}` with `VAR=""` gives
`replacement` (Set presence), and with `VAR` unset gives the empty string. -/
theorem replaceIfPresent_spec_witness :
    evaluate (envOne "VAR" "") [Token.var "VAR" (some (Var.replace VState.set [Token.str "replacement"]))]
      = Except.ok "replacement"
    ∧ evaluate envEmpty [Token.var "VAR" (some (Var.replace VState.set [Token.str "replacement"]))]
      = Except.ok "" := by
  constructor
  · have h := (replaceIfPresent_spec (envOne "VAR" "") "VAR" VState.set [Token.str "replacement"]).1 rfl
    simpa using h
  · exact (replaceIfPresent_spec envEmpty "VAR" VState.set [Token.str "replacement"]).2 rfl

/-- `serde_yaml::Value`: the structured tree the pipeline walks. Numbers are
split as in serde_yaml into integral (`u64`/`i64`, whose `to_string` renderings
agree with `Int` rendering) and floating values; a floating value is carried
together with its `f64` display rendering, since floating-point formatting is
external to the embedded logic. -/
inductive Value where
  | null
  | bool (b : Bool)
  | intNum (n : Int)
  | floatNum (display : String)
  | string (s : String)
  | sequence (vs : List Value)
  | mapping (kvs : List (Value × Value))

/-- Identifier start per the spec grammar: `[A-Za-z_]`. -/
def isIdentStart (c : Char) : Bool := c.isAlpha || c = '_'

/-- Identifier continuation per the spec grammar: `[A-Za-z0-9_]`. -/
def isIdentChar (c : Char) : Bool := c.isAlphanum || c = '_'

/-- Longest identifier prefix of the input and the remainder. -/
def takeIdent : List Char → List Char × List Char
  | [] => ([], [])
  | c :: cs =>
    if isIdentChar c then
      let p := takeIdent cs
      (c :: p.1, p.2)
    else ([], c :: cs)

/-- Scan up to the matching closing brace of a braced form, tracking nesting
depth so that nested braced references stay inside the operator text; returns
the nested text and the remainder after the brace, or `none` when the closing
brace is missing. -/
def takeBraced : List Char → Nat → Option (List Char × List Char)
  | [], _ => none
  | c :: cs, depth =>
    if c = '}' then
      if depth = 0 then some ([], cs)
      else (takeBraced cs (depth - 1)).map (fun p => (c :: p.1, p.2))
    else if c = '{' then
      (takeBraced cs (depth + 1)).map (fun p => (c :: p.1, p.2))
    else
      (takeBraced cs depth).map (fun p => (c :: p.1, p.2))

/-- Emit a pending literal run (if non-empty) in front of the given tokens. -/
def flushLit (lit : List Char) (rest : List Token) : List Token :=
  if lit.isEmpty then rest else Token.str (String.mk lit) :: rest

/-- Modelled from the spec: the token parser `parser::parse` (parser.rs is not
among the embedded sources). Scans left to right; a `$` not followed by `{` or
an identifier character is literal; `$NAME` is a bare reference; `${NAME...}`
optionally carries `:` (selecting `SetAndNonEmpty`) and one operator sigil
`-`/`?`/`+` whose text, up to the matching `}`, is itself recursively parsed;
malformed input (empty name, unrecognized sigil, missing `}`) is a parse
error. The `Nat` argument is recursion fuel, amply provisioned by the
wrapper. -/
def parseAux : Nat → List Char → List Char → Except String (List Token)
  | 0, _, _ => Except.error "interpolation nesting too deep"
  | _ + 1, lit, [] => Except.ok (flushLit lit [])
  | fuel + 1, lit, '$' :: rest =>
    match rest with
    | [] => Except.ok (flushLit (lit ++ ['$']) [])
    | '{' :: rest2 =>
      let p := takeIdent rest2
      if p.1.isEmpty then Except.error "invalid interpolation format: empty variable name"
      else
        match p.2 with
        | '}' :: rest4 =>
          (parseAux fuel [] rest4).map
            (fun ts => flushLit lit (Token.var (String.mk p.1) none :: ts))
        | rest3 =>
          let q : VState × List Char :=
            match rest3 with
            | ':' :: r => (VState.setAndNonEmpty, r)
            | r => (VState.set, r)
          match q.2 with
          | [] => Except.error "invalid interpolation format: missing closing brace"
          | sig :: rest5 =>
            if sig = '-' ∨ sig = '?' ∨ sig = '+' then
              match takeBraced rest5 0 with
              | none => Except.error "invalid interpolation format: missing closing brace"
              | some (inner, rest6) =>
                match parseAux fuel [] inner with
                | Except.error e => Except.error e
                | Except.ok innerToks =>
                  let op :=
                    if sig = '-' then Var.default q.1 innerToks
                    else if sig = '?' then Var.err q.1 innerToks
                    else Var.replace q.1 innerToks
                  (parseAux fuel [] rest6).map
                    (fun ts => flushLit lit (Token.var (String.mk p.1) (some op) :: ts))
            else Except.error "invalid interpolation format: unrecognized operator"
    | c :: rest2 =>
      if isIdentStart c then
        let p := takeIdent rest2
        (parseAux fuel [] p.2).map
          (fun ts => flushLit lit (Token.var (String.mk (c :: p.1)) none :: ts))
      else parseAux fuel (lit ++ ['$']) rest
  | fuel + 1, lit, c :: cs => parseAux fuel (lit ++ [c]) cs

/-- Modelled from the spec: `parser::parse (input) -> Result<Vec<Token>>`. -/
def parseTokens (s : String) : Except String (List Token) :=
  parseAux (2 * s.length + 2) [] s.data

example : parseTokens "${VAR:-default}" =
    Except.ok [Token.var "VAR" (some (Var.default VState.setAndNonEmpty [Token.str "default"]))] := by
  rfl

example : parseTokens "pre ${VAR} post" =
    Except.ok [Token.str "pre ", Token.var "VAR" none, Token.str " post"] := by
  rfl

example : parseTokens "${VAR-${DEF}}" =
    Except.ok [Token.var "VAR" (some (Var.default VState.set [Token.var "DEF" none]))] := by
  rfl

/-- Outcome of a tree walk that can diverge by panicking (`unwrap` on `None`),
fail with an `anyhow` error carrying a chain of context strings (outermost
first) around a base message, or succeed. -/
inductive IResult (α : Type) where
  | panicked
  | err (ctx : List String) (msg : String)
  | ok (a : α)

mutual

/-- `interpolate` from src/compose.rs lines 76-94: parse-and-evaluate every
string scalar, walk sequences and mappings, pass other scalars through. In the
mapping case the Rust code attaches the key as lazy error context via
`with_context(|| key.as_str().unwrap().to_string())`: the closure only runs
when interpolation of the entry value has failed, and then panics when the key
is not a string. -/
def interpolate (env : Env) : Value → IResult Value
  | .string s =>
    match parseTokens s with
    | Except.error e => IResult.err [] e
    | Except.ok ts =>
      match evaluate env ts with
      | Except.error e => IResult.err [] e
      | Except.ok r => IResult.ok (Value.string r)
  | .sequence vs =>
    match interpolateList env vs with
    | IResult.panicked => IResult.panicked
    | IResult.err c m => IResult.err c m
    | IResult.ok vs2 => IResult.ok (Value.sequence vs2)
  | .mapping kvs =>
    match interpolateMap env kvs with
    | IResult.panicked => IResult.panicked
    | IResult.err c m => IResult.err c m
    | IResult.ok kvs2 => IResult.ok (Value.mapping kvs2)
  | v => IResult.ok v

/-- Element-wise walk of a sequence (`values.iter().map(interpolate).collect()`):
first failure aborts. -/
def interpolateList (env : Env) : List Value → IResult (List Value)
  | [] => IResult.ok []
  | v :: vs =>
    match interpolate env v with
    | IResult.panicked => IResult.panicked
    | IResult.err c m => IResult.err c m
    | IResult.ok v2 =>
      match interpolateList env vs with
      | IResult.panicked => IResult.panicked
      | IResult.err c m => IResult.err c m
      | IResult.ok vs2 => IResult.ok (v2 :: vs2)

/-- Entry-wise walk of a mapping (src/compose.rs lines 82-89): values are
interpolated, keys are kept; on a value error, the key is stringified for the
error context — panicking when the key is not a string. -/
def interpolateMap (env : Env) : List (Value × Value) → IResult (List (Value × Value))
  | [] => IResult.ok []
  | (k, v) :: kvs =>
    match interpolate env v with
    | IResult.panicked => IResult.panicked
    | IResult.err c m =>
      match k with
      | Value.string ks => IResult.err (ks :: c) m
      | _ => IResult.panicked
    | IResult.ok v2 =>
      match interpolateMap env kvs with
      | IResult.panicked => IResult.panicked
      | IResult.err c m => IResult.err c m
      | IResult.ok kvs2 => IResult.ok ((k, v2) :: kvs2)

end

mutual

/-- Every mapping key in the tree is a string scalar. -/
def allStrKeys : Value → Bool
  | .sequence vs => allStrKeysList vs
  | .mapping kvs => allStrKeysMap kvs
  | _ => true

/-- `allStrKeys` on every element of a sequence. -/
def allStrKeysList : List Value → Bool
  | [] => true
  | v :: vs => allStrKeys v && allStrKeysList vs

/-- Keys are strings and values satisfy `allStrKeys`, for every entry. -/
def allStrKeysMap : List (Value × Value) → Bool
  | [] => true
  | (k, v) :: kvs =>
    (match k with | Value.string _ => true | _ => false) && allStrKeys v && allStrKeysMap kvs

end

mutual

theorem interpolate_noPanic (env : Env) : (v : Value) → allStrKeys v = true →
    interpolate env v ≠ IResult.panicked
  | .null, _ => by simp [interpolate]
  | .bool _, _ => by simp [interpolate]
  | .intNum _, _ => by simp [interpolate]
  | .floatNum _, _ => by simp [interpolate]
  | .string s, _ => by
    unfold interpolate
    cases parseTokens s with
    | error e => simp
    | ok ts => cases h2 : evaluate env ts <;> simp [h2]
  | .sequence vs, h => by
    have hl := interpolateList_noPanic env vs (by simpa [allStrKeys] using h)
    unfold interpolate
    cases hil : interpolateList env vs <;> simp_all
  | .mapping kvs, h => by
    have hm := interpolateMap_noPanic env kvs (by simpa [allStrKeys] using h)
    unfold interpolate
    cases him : interpolateMap env kvs <;> simp_all

theorem interpolateList_noPanic (env : Env) : (vs : List Value) → allStrKeysList vs = true →
    interpolateList env vs ≠ IResult.panicked
  | [], _ => by simp [interpolateList]
  | v :: vs, h => by
    have h1 : allStrKeys v = true := by
      have := h
      simp [allStrKeysList, Bool.and_eq_true] at this
      exact this.1
    have h2 : allStrKeysList vs = true := by
      have := h
      simp [allStrKeysList, Bool.and_eq_true] at this
      exact this.2
    have hv := interpolate_noPanic env v h1
    have hvs := interpolateList_noPanic env vs h2
    unfold interpolateList
    cases hi : interpolate env v <;> cases hl : interpolateList env vs <;> simp_all

theorem interpolateMap_noPanic (env : Env) : (kvs : List (Value × Value)) → allStrKeysMap kvs = true →
    interpolateMap env kvs ≠ IResult.panicked
  | [], _ => by simp [interpolateMap]
  | (k, v) :: kvs, h => by
    have h3 : allStrKeysMap kvs = true := by
      have := h
      simp [allStrKeysMap, Bool.and_eq_true] at this
      exact this.2
    have h1 : allStrKeys v = true := by
      have := h
      simp [allStrKeysMap, Bool.and_eq_true] at this
      exact this.1.2
    have hks : ∃ s, k = Value.string s := by
      have := h
      simp [allStrKeysMap, Bool.and_eq_true] at this
      cases k <;> simp_all
    obtain ⟨s, rfl⟩ := hks
    have hv := interpolate_noPanic env v h1
    have hm := interpolateMap_noPanic env kvs h3
    unfold interpolateMap
    cases hi : interpolate env v <;> cases hl : interpolateMap env kvs <;> simp_all

end

theorem interpolateMap_panic_of_err (env : Env) (k v : Value) (kvs : List (Value × Value))
    (c : List String) (m : String)
    (hk : ∀ s, k ≠ Value.string s) (hv : interpolate env v = IResult.err c m) :
    ∀ pre : List (Value × Value), (∀ e ∈ pre, ∃ w, interpolate env e.2 = IResult.ok w) →
      interpolateMap env (pre ++ (k, v) :: kvs) = IResult.panicked
  | [], _ => by
    have : interpolateMap env ((k, v) :: kvs) = IResult.panicked := by
      unfold interpolateMap
      rw [hv]
      cases k <;> simp_all
    simpa using this
  | (k0, v0) :: pre, hpre => by
    obtain ⟨w, hw⟩ := hpre (k0, v0) (by simp)
    have ih := interpolateMap_panic_of_err env k v kvs c m hk hv pre
      (fun e he => hpre e (by simp [he]))
    show interpolateMap env ((k0, v0) :: (pre ++ (k, v) :: kvs)) = IResult.panicked
    unfold interpolateMap
    rw [hw, ih]

/-- C10 (amended): `interpolate` is partial at its public interface, but the
panic is conditional on a failing value: when a mapping entry's value fails to
interpolate, entries before it succeeding, and that entry's key is not a
string, the lazily evaluated error-context closure `key.as_str().unwrap()`
panics; conversely, when every mapping key in the tree is a string,
`interpolate` never panics (failures are returned as errors). -/
theorem interpolate_partiality :
    (∀ (env : Env) (pre : List (Value × Value)) (k v : Value)
        (kvs : List (Value × Value)) (c : List String) (m : String),
      (∀ e ∈ pre, ∃ w, interpolate env e.2 = IResult.ok w) →
      (∀ s, k ≠ Value.string s) →
      interpolate env v = IResult.err c m →
      interpolate env (Value.mapping (pre ++ (k, v) :: kvs)) = IResult.panicked)
    ∧ (∀ (env : Env) (v : Value), allStrKeys v = true →
        interpolate env v ≠ IResult.panicked) := by
  constructor
  · intro env pre k v kvs c m hpre hk hv
    have h := interpolateMap_panic_of_err env k v kvs c m hk hv pre hpre
    unfold interpolate
    rw [h]
  · exact fun env v h => interpolate_noPanic env v h

/-- Witness for C10 (amended) at concrete inputs: a mapping with integer key
`5` whose value `${X?}` fails interpolation panics, while a tree with string
keys does not panic. -/
theorem interpolate_partiality_witness :
    interpolate envEmpty (Value.mapping [(Value.intNum 5, Value.string "${X?}")])
      = IResult.panicked
    ∧ interpolate envEmpty (Value.mapping [(Value.string "k", Value.string "${X?}")])
      ≠ IResult.panicked := by
  constructor
  · exact interpolate_partiality.1 envEmpty [] (Value.intNum 5) (Value.string "${X?}") [] []
      "Required variable \"X\" is missing a value"
      (by intro e he; simp at he)
      (by intro s h; exact Value.noConfusion h)
      (by rfl)
  · exact interpolate_partiality.2 envEmpty (Value.mapping [(Value.string "k", Value.string "${X?}")]) (by rfl)

/-- Counterexample to C10 as stated: a tree containing a mapping with the
non-string key `5` whose value interpolates successfully does not panic —
`interpolate` returns the mapping unchanged, because the panicking
`key.as_str().unwrap()` sits inside a lazy `with_context` closure that only
runs when interpolation of the entry value fails. -/
theorem interpolate_nonstring_key_no_panic :
    interpolate envEmpty (Value.mapping [(Value.intNum 5, Value.string "hello")])
      = IResult.ok (Value.mapping [(Value.intNum 5, Value.string "hello")])
    ∧ interpolate envEmpty (Value.mapping [(Value.intNum 5, Value.string "hello")])
      ≠ IResult.panicked := by
  have h : interpolate envEmpty (Value.mapping [(Value.intNum 5, Value.string "hello")])
      = IResult.ok (Value.mapping [(Value.intNum 5, Value.string "hello")]) := by rfl
  exact ⟨h, by rw [h]; exact fun hh => IResult.noConfusion hh⟩

/-- The key comparison `*key == "name"` (`Value` equals a `&str` exactly when
it is that string). -/
def keyIsName (k : Value) : Bool :=
  match k with
  | Value.string s => s == "name"
  | _ => false

/-- `values.into_iter().find(|(key, _)| *key == "name")`: the value of the
first `name` entry of the root mapping, if any. -/
def findName : List (Value × Value) → Option Value
  | [] => none
  | (k, v) :: rest => if keyIsName k then some v else findName rest

/-- In-place update of the first `name` entry (the mutation through the
`find` reference in src/compose.rs line 122). -/
def replaceName (m : List (Value × Value)) (v2 : Value) : List (Value × Value) :=
  match m with
  | [] => []
  | (k, v) :: rest => if keyIsName k then (k, v2) :: rest else (k, v) :: replaceName rest v2

/-- `values.insert(Value::String("name"), v)` with IndexMap semantics: an
existing equal key keeps its place and has its value overwritten, otherwise
the entry is appended at the end. -/
def insertNameKey (m : List (Value × Value)) (v : Value) : List (Value × Value) :=
  match m with
  | [] => [(Value.string "name", v)]
  | (k, w) :: rest => if keyIsName k then (k, v) :: rest else (k, w) :: insertNameKey rest v

/-- Project-name resolution, src/compose.rs lines 111-158: given the explicit
`config.project_name`, the base name of the current working directory, the
environment and the freshly parsed tree, produce the (possibly rewritten)
tree and the environment after the `COMPOSE_PROJECT_NAME` publication. The
`u64` and `i64` branches of the source both render the number with its
decimal representation, which is `Int` rendering here. -/
def setProjectName (projectName : Option String) (cwdBase : String) (env : Env)
    (content : Value) : IResult (Value × Env) :=
  match content with
  | Value.mapping values =>
    match projectName with
    | some n => IResult.ok (Value.mapping (insertNameKey values (Value.string n)), env)
    | none =>
      match findName values with
      | some nv =>
        match nv with
        | Value.string s =>
          match interpolate env (Value.string s) with
          | IResult.panicked => IResult.panicked
          | IResult.err c m => IResult.err c m
          | IResult.ok nv2 =>
            match nv2 with
            | Value.string r =>
              IResult.ok (Value.mapping (replaceName values (Value.string r)),
                env.set "COMPOSE_PROJECT_NAME" r)
            | _ => IResult.panicked
        | Value.bool b =>
          IResult.ok (content, env.set "COMPOSE_PROJECT_NAME" (if b then "true" else "false"))
        | Value.intNum n =>
          IResult.ok (content, env.set "COMPOSE_PROJECT_NAME" (toString n))
        | Value.floatNum r =>
          IResult.ok (content, env.set "COMPOSE_PROJECT_NAME" r)
        | _ => IResult.ok (content, env)
      | none =>
        IResult.ok (Value.mapping (insertNameKey values (Value.string cwdBase)),
          env.set "COMPOSE_PROJECT_NAME" cwdBase)
  | _ => IResult.ok (content, env)

/-- C5: three-tier project-name precedence. (a) An explicit project name is
written into the tree's `name` field, overriding any existing value. (b) Else
an existing `name` field is used: a string is interpolated, written back and
published to `COMPOSE_PROJECT_NAME`; boolean, integral and floating values
are stringified and published, the tree left unchanged. (c) Else the working
directory's base name is published and written into the tree. -/
theorem projectName_precedence (cfg : Option String) (cwd : String) (env : Env)
    (values : List (Value × Value)) :
    (∀ n, cfg = some n →
      setProjectName cfg cwd env (Value.mapping values)
        = IResult.ok (Value.mapping (insertNameKey values (Value.string n)), env))
    ∧ (cfg = none → ∀ s r, findName values = some (Value.string s) →
      interpolate env (Value.string s) = IResult.ok (Value.string r) →
      setProjectName cfg cwd env (Value.mapping values)
        = IResult.ok (Value.mapping (replaceName values (Value.string r)),
            env.set "COMPOSE_PROJECT_NAME" r))
    ∧ (cfg = none → ∀ b, findName values = some (Value.bool b) →
      setProjectName cfg cwd env (Value.mapping values)
        = IResult.ok (Value.mapping values,
            env.set "COMPOSE_PROJECT_NAME" (if b then "true" else "false")))
    ∧ (cfg = none → ∀ n : Int, findName values = some (Value.intNum n) →
      setProjectName cfg cwd env (Value.mapping values)
        = IResult.ok (Value.mapping values, env.set "COMPOSE_PROJECT_NAME" (toString n)))
    ∧ (cfg = none → ∀ r, findName values = some (Value.floatNum r) →
      setProjectName cfg cwd env (Value.mapping values)
        = IResult.ok (Value.mapping values, env.set "COMPOSE_PROJECT_NAME" r))
    ∧ (cfg = none → findName values = none →
      setProjectName cfg cwd env (Value.mapping values)
        = IResult.ok (Value.mapping (insertNameKey values (Value.string cwd)),
            env.set "COMPOSE_PROJECT_NAME" cwd)) := by
  refine ⟨?_, ?_, ?_, ?_, ?_, ?_⟩
  · intro n hn
    simp [setProjectName, hn]
  · intro hc s r hf hi
    simp [setProjectName, hc, hf, hi]
  · intro hc b hf
    simp [setProjectName, hc, hf]
  · intro hc n hf
    simp [setProjectName, hc, hf]
  · intro hc r hf
    simp [setProjectName, hc, hf]
  · intro hc hf
    simp [setProjectName, hc, hf]

/-- Witness for C5 at concrete inputs: an explicit override beats a present
`name` field; without an override, `name: 5` publishes `"5"` to
`COMPOSE_PROJECT_NAME` leaving the tree unchanged; without a `name` field,
the working directory base name is published and written into the tree. -/
theorem projectName_precedence_witness :
    setProjectName (some "proj") "dir" envEmpty
        (Value.mapping [(Value.string "name", Value.string "old")])
      = IResult.ok (Value.mapping [(Value.string "name", Value.string "proj")], envEmpty)
    ∧ setProjectName none "dir" envEmpty
        (Value.mapping [(Value.string "name", Value.intNum 5)])
      = IResult.ok (Value.mapping [(Value.string "name", Value.intNum 5)],
          envEmpty.set "COMPOSE_PROJECT_NAME" "5")
    ∧ setProjectName none "dir" envEmpty (Value.mapping [])
      = IResult.ok (Value.mapping [(Value.string "name", Value.string "dir")],
          envEmpty.set "COMPOSE_PROJECT_NAME" "dir") := by
  refine ⟨?_, ?_, ?_⟩
  · exact (projectName_precedence (some "proj") "dir" envEmpty
      [(Value.string "name", Value.string "old")]).1 "proj" rfl
  · exact (projectName_precedence none "dir" envEmpty
      [(Value.string "name", Value.intNum 5)]).2.2.2.1 rfl 5 rfl
  · exact (projectName_precedence none "dir" envEmpty []).2.2.2.2.2 rfl rfl

/-- Typed service entry; of the schema (types.rs, an external collaborator of
the embedded sources) only the fields read by the validation loop are
modelled, per the spec's Document description. -/
structure Service where
  image : Option String := none
  build : Option String := none
  network_mode : Option String := none
  ports : Option (List String) := none
  deriving Repr, DecidableEq

/-- Typed network entry, fields per the external-resource constraint check. -/
structure Network where
  external : Option Bool := none
  driver : Option String := none
  driver_opts : Option (List (String × String)) := none
  enable_ipv6 : Option Bool := none
  ipam : Option String := none
  internal : Option Bool := none
  labels : Option (List String) := none
  deriving Repr, DecidableEq

/-- Typed volume entry, fields per the external-resource constraint check. -/
structure Volume where
  external : Option Bool := none
  driver : Option String := none
  driver_opts : Option (List (String × String)) := none
  labels : Option (List String) := none
  deriving Repr, DecidableEq

/-- Typed config entry, fields per the external-resource constraint check. -/
structure ConfigDef where
  external : Option Bool := none
  file : Option String := none
  deriving Repr, DecidableEq

/-- Typed secret entry, fields per the external-resource constraint check. -/
structure Secret where
  external : Option Bool := none
  file : Option String := none
  environment : Option String := none
  deriving Repr, DecidableEq

/-- Insertion-ordered string-keyed mapping entries (IndexMap), with the
unique-key invariant of deserialized mappings; `insert` on an existing key
overwrites its value in place, otherwise appends. -/
def insertA {α : Type} : List (String × α) → String → α → List (String × α)
  | [], k, v => [(k, v)]
  | p :: rest, k, v => if p.1 = k then (p.1, v) :: rest else p :: insertA rest k v

/-- `IndexMap::extend`: insert every entry of the second mapping, in order,
into the first. -/
def extendA {α : Type} (m m2 : List (String × α)) : List (String × α) :=
  m2.foldl (fun acc p => insertA acc p.1 p.2) m

/-- Key lookup (first entry with the key). -/
def lookupA {α : Type} (m : List (String × α)) (k : String) : Option α :=
  (m.find? (fun p => p.1 == k)).map Prod.snd

/-- The typed `Compose` document (types.rs): `version`, `name`, the `services`
mapping and the four optional resource sections, per the spec's Document
shape. -/
structure Compose where
  version : Option String := none
  name : Option String := none
  services : List (String × Service) := []
  networks : Option (List (String × Option Network)) := none
  volumes : Option (List (String × Option Volume)) := none
  configs : Option (List (String × ConfigDef)) := none
  secrets : Option (List (String × Secret)) := none
  deriving Repr, DecidableEq

/-- `Compose::new()`: the empty accumulator. -/
def Compose.new : Compose := {}

/-- The two per-service constraint checks of src/compose.rs lines 194-208, in
source order: an image or a build context must be present; host network mode
forbids port mappings. -/
def checkService (path : String) (e : String × Service) : Except String Unit :=
  if e.2.build.isNone && e.2.image.isNone then
    Except.error (path ++ ": service \"" ++ e.1
      ++ "\" has neither an image nor a build context specified")
  else if (e.2.network_mode.getD "") == "host" && e.2.ports.isSome then
    Except.error (path ++ ": service \"" ++ e.1
      ++ "\" cannot have port mappings due to host network mode")
  else Except.ok ()

/-- The network constraint check of src/compose.rs lines 210-225: an external
network must not also declare driver, driver options, IPv6 enablement, IPAM,
internal or labels. -/
def checkNetwork (path : String) (e : String × Option Network) : Except String Unit :=
  match e.2 with
  | none => Except.ok ()
  | some nw =>
    if nw.external.getD false
        && (nw.driver.isSome || nw.driver_opts.isSome || nw.enable_ipv6.isSome
          || nw.ipam.isSome || nw.internal.isSome || nw.labels.isSome) then
      Except.error (path ++ ": conflicting parameters for network \"" ++ e.1 ++ "\"")
    else Except.ok ()

/-- The volume constraint check of src/compose.rs lines 227-239. -/
def checkVolume (path : String) (e : String × Option Volume) : Except String Unit :=
  match e.2 with
  | none => Except.ok ()
  | some vol =>
    if vol.external.getD false
        && (vol.driver.isSome || vol.driver_opts.isSome || vol.labels.isSome) then
      Except.error (path ++ ": conflicting parameters for volume \"" ++ e.1 ++ "\"")
    else Except.ok ()

/-- The config constraint check of src/compose.rs lines 241-247. -/
def checkConfig (path : String) (e : String × ConfigDef) : Except String Unit :=
  if e.2.external.getD false && e.2.file.isSome then
    Except.error (path ++ ": conflicting parameters for config \"" ++ e.1 ++ "\"")
  else Except.ok ()

/-- The secret constraint check of src/compose.rs lines 249-257. -/
def checkSecret (path : String) (e : String × Secret) : Except String Unit :=
  if e.2.external.getD false && (e.2.file.isSome || e.2.environment.isSome) then
    Except.error (path ++ ": conflicting parameters for secret \"" ++ e.1 ++ "\"")
  else Except.ok ()

/-- A `for`-loop of per-entry checks, bailing on the first violation. -/
def validateList {β : Type} (chk : β → Except String Unit) : List β → Except String Unit
  | [] => Except.ok ()
  | e :: rest =>
    match chk e with
    | Except.error m => Except.error m
    | Except.ok _ => validateList chk rest

/-- The same loop over an optional section (`if let Some(..)`). -/
def validateOpt {β : Type} (chk : β → Except String Unit) :
    Option (List β) → Except String Unit
  | none => Except.ok ()
  | some xs => validateList chk xs

/-- All constraint checks for one document, src/compose.rs lines 194-257, in
source order: services, then networks, volumes, configs, secrets. -/
def validateFile (path : String) (f : Compose) : Except String Unit := do
  validateList (checkService path) f.services
  validateOpt (checkNetwork path) f.networks
  validateOpt (checkVolume path) f.volumes
  validateOpt (checkConfig path) f.configs
  validateOpt (checkSecret path) f.secrets

/-- Merging one document into the accumulator, src/compose.rs lines 267-301:
`version` and `name` are straight overwrites, `services` is always extended,
and each optional section follows the source's three-arm `match` (extend when
both present, adopt when only the document has it, otherwise leave the
accumulator). -/
def mergeFile (acc f : Compose) : Compose :=
  { version := f.version
    name := f.name
    services := extendA acc.services f.services
    networks :=
      match acc.networks, f.networks with
      | some a, some b => some (extendA a b)
      | none, some b => some b
      | a, _ => a
    volumes :=
      match acc.volumes, f.volumes with
      | some a, some b => some (extendA a b)
      | none, some b => some b
      | a, _ => a
    configs :=
      match acc.configs, f.configs with
      | some a, some b => some (extendA a b)
      | none, some b => some b
      | a, _ => a
    secrets :=
      match acc.secrets, f.secrets with
      | some a, some b => some (extendA a b)
      | none, some b => some b
      | a, _ => a }

/-- The validate-then-merge loop of src/compose.rs lines 193-302 over the
loaded documents, folding into the accumulator. -/
def parseMerge : List (String × Compose) → Compose → Except String Compose
  | [], acc => Except.ok acc
  | (p, f) :: rest, acc =>
    match validateFile p f with
    | Except.error e => Except.error e
    | Except.ok _ => parseMerge rest (mergeFile acc f)

/-- The whole merge phase, starting from `Compose::new()`. -/
def mergeAll (files : List (String × Compose)) : Except String Compose :=
  parseMerge files Compose.new

/-- The optional-section merge policy exactly as the spec words it: both
present — extend; only the document — adopt; only the accumulator — keep;
neither — absent. -/
def mergeSectionSpec {α : Type} (acc cur : Option (List (String × α))) :
    Option (List (String × α)) :=
  match acc, cur with
  | some a, some b => some (extendA a b)
  | none, some b => some b
  | some a, none => some a
  | none, none => none

theorem lookupA_cons {α : Type} (p : String × α) (rest : List (String × α)) (k : String) :
    lookupA (p :: rest) k = if p.1 = k then some p.2 else lookupA rest k := by
  by_cases h : p.1 = k
  · simp [lookupA, List.find?, h]
  · have hb : (p.1 == k) = false := by simpa using h
    simp [lookupA, List.find?, hb, h]

theorem lookupA_insertA_self {α : Type} (m : List (String × α)) (k : String) (v : α) :
    lookupA (insertA m k v) k = some v := by
  induction m with
  | nil => simp [insertA, lookupA_cons]
  | cons p rest ih =>
    by_cases h : p.1 = k
    · simp [insertA, h, lookupA_cons]
    · simp [insertA, h, lookupA_cons, ih]

theorem lookupA_insertA_other {α : Type} (m : List (String × α)) (k k2 : String) (v : α)
    (h : k2 ≠ k) : lookupA (insertA m k v) k2 = lookupA m k2 := by
  induction m with
  | nil =>
    have hb : (k == k2) = false := by simpa using Ne.symm h
    simp [insertA, lookupA, List.find?, hb]
  | cons p rest ih =>
    by_cases hp : p.1 = k
    · simp [insertA, hp, lookupA_cons, Ne.symm h]
    · simp [insertA, hp, lookupA_cons, ih]

theorem lookupA_extendA_not_mem {α : Type} :
    ∀ (b a : List (String × α)) (k : String), ¬ k ∈ b.map Prod.fst →
      lookupA (extendA a b) k = lookupA a k
  | [], _, _, _ => rfl
  | (pk, pv) :: rest, a, k, h => by
    have hk : k ≠ pk := by
      intro hkk
      exact h (by simp [hkk])
    have hrest : ¬ k ∈ rest.map Prod.fst := by
      intro hm
      exact h (by simp [hm])
    have ih := lookupA_extendA_not_mem rest (insertA a pk pv) k hrest
    show lookupA (extendA (insertA a pk pv) rest) k = lookupA a k
    rw [ih, lookupA_insertA_other a pk k pv hk]

theorem lookupA_extendA_right {α : Type} :
    ∀ (b a : List (String × α)) (k : String) (v : α), (b.map Prod.fst).Nodup →
      lookupA b k = some v → lookupA (extendA a b) k = some v
  | [], _, k, v, _, h => by simp [lookupA, List.find?] at h
  | (pk, pv) :: rest, a, k, v, hnd, h => by
    have hnd1 : (pk :: rest.map Prod.fst).Nodup := by simpa using hnd
    by_cases hp : pk = k
    · subst hp
      have hv : pv = v := by
        rw [lookupA_cons] at h
        simpa using h
      have hnotin : ¬ pk ∈ rest.map Prod.fst := (List.nodup_cons.mp hnd1).1
      show lookupA (extendA (insertA a pk pv) rest) pk = some v
      rw [lookupA_extendA_not_mem rest (insertA a pk pv) pk hnotin,
        lookupA_insertA_self, hv]
    · have h2 : lookupA rest k = some v := by
        rw [lookupA_cons] at h
        simpa [hp] using h
      exact lookupA_extendA_right rest (insertA a pk pv) k v (List.nodup_cons.mp hnd1).2 h2

/-- C6: each optional section (`networks`, `volumes`, `configs`, `secrets`) of
the merged accumulator follows the four-case policy — both present: the
document's entries extend the accumulator's mapping, overwriting on key
collision; only the document: adopt; only the accumulator: keep; neither:
absent. -/
theorem sectionMerge_spec (acc f : Compose) :
    ((mergeFile acc f).networks = mergeSectionSpec acc.networks f.networks)
    ∧ ((mergeFile acc f).volumes = mergeSectionSpec acc.volumes f.volumes)
    ∧ ((mergeFile acc f).configs = mergeSectionSpec acc.configs f.configs)
    ∧ ((mergeFile acc f).secrets = mergeSectionSpec acc.secrets f.secrets)
    ∧ (∀ (a b : List (String × Option Network)) (k : String) (v : Option Network),
        acc.networks = some a → f.networks = some b →
        (b.map Prod.fst).Nodup → lookupA b k = some v →
        (mergeFile acc f).networks = some (extendA a b)
          ∧ lookupA (extendA a b) k = some v) := by
  refine ⟨?_, ?_, ?_, ?_, ?_⟩
  · rcases hA : acc.networks with _ | a <;> rcases hB : f.networks with _ | b <;>
      simp [mergeFile, mergeSectionSpec, hA, hB]
  · rcases hA : acc.volumes with _ | a <;> rcases hB : f.volumes with _ | b <;>
      simp [mergeFile, mergeSectionSpec, hA, hB]
  · rcases hA : acc.configs with _ | a <;> rcases hB : f.configs with _ | b <;>
      simp [mergeFile, mergeSectionSpec, hA, hB]
  · rcases hA : acc.secrets with _ | a <;> rcases hB : f.secrets with _ | b <;>
      simp [mergeFile, mergeSectionSpec, hA, hB]
  · intro a b k v ha hb hnd hc
    constructor
    · simp [mergeFile, ha, hb]
    · exact lookupA_extendA_right b a k v hnd hc

/-- Witness for C6 at concrete inputs: both sides with `networks` extend with
the document winning the collision; a document without `networks` leaves the
accumulator's section. -/
theorem sectionMerge_spec_witness :
    (mergeFile { networks := some [("net1", none)] } Compose.new).networks
      = some [("net1", none)]
    ∧ (mergeFile
        { networks := some [("net1", none), ("x", some { driver := some "a" })] }
        { networks := some [("x", some { driver := some "b" })] }).networks
      = some [("net1", none), ("x", some { driver := some "b" })]
    ∧ lookupA [("net1", (none : Option Network)), ("x", some { driver := some "b" })] "x"
      = some (some { driver := some "b" }) := by
  have h := (sectionMerge_spec
    { networks := some [("net1", none), ("x", some { driver := some "a" })] }
    { networks := some [("x", some { driver := some "b" })] }).2.2.2.2
    [("net1", none), ("x", some { driver := some "a" })]
    [("x", some { driver := some "b" })] "x" (some { driver := some "b" })
    rfl rfl (by simp) (by simp [lookupA_cons])
  refine ⟨?_, ?_, ?_⟩
  · exact (sectionMerge_spec { networks := some [("net1", none)] } Compose.new).1
  · exact h.1
  · exact h.2

/-- C7: folding documents in source order, `services` is always merged — the
current document's entries are inserted into the accumulator, overwriting on
key collision, while the accumulator's entries under non-colliding keys are
preserved — and `version` and `name` are straight overwrites from the last
document. -/
theorem mergeOrder_spec (p1 p2 : String) (d1 d2 : Compose) (k : String) (s : Service)
    (h1 : validateFile p1 d1 = Except.ok ())
    (h2 : validateFile p2 d2 = Except.ok ())
    (hnd1 : (d1.services.map Prod.fst).Nodup)
    (hnd : (d2.services.map Prod.fst).Nodup)
    (hk : lookupA d2.services k = some s) :
    ∃ c, mergeAll [(p1, d1), (p2, d2)] = Except.ok c
      ∧ lookupA c.services k = some s
      ∧ (∀ (k2 : String) (s2 : Service), ¬ k2 ∈ d2.services.map Prod.fst →
          lookupA d1.services k2 = some s2 → lookupA c.services k2 = some s2)
      ∧ c.version = d2.version ∧ c.name = d2.name := by
  refine ⟨mergeFile (mergeFile Compose.new d1) d2, ?_, ?_, ?_, rfl, rfl⟩
  · simp [mergeAll, parseMerge, h1, h2]
  · exact lookupA_extendA_right d2.services (mergeFile Compose.new d1).services k s hnd hk
  · intro k2 s2 hnotin hlook
    show lookupA (extendA (extendA Compose.new.services d1.services) d2.services) k2 = some s2
    rw [lookupA_extendA_not_mem d2.services (extendA Compose.new.services d1.services) k2 hnotin]
    exact lookupA_extendA_right d1.services Compose.new.services k2 s2 hnd1 hlook

/-- Witness for C7 at concrete inputs: two documents both defining service
`web`, the first alone defining `db`; in the combined document `web` is the
second document's definition, `db` is preserved from the first, and
`version`/`name` come from the second document. -/
theorem mergeOrder_spec_witness :
    ∃ c, mergeAll
        [("a.yml",
          { version := some "3", name := some "a",
            services := [("web", { image := some "img1" }),
              ("db", { image := some "postgres" })] }),
         ("b.yml",
          { version := some "4", name := some "b",
            services := [("web", { image := some "img2" })] })] = Except.ok c
      ∧ lookupA c.services "web" = some { image := some "img2" }
      ∧ lookupA c.services "db" = some { image := some "postgres" }
      ∧ c.version = some "4" ∧ c.name = some "b" := by
  obtain ⟨c, hc, hweb, hpres, hv, hn⟩ := mergeOrder_spec "a.yml" "b.yml"
    { version := some "3", name := some "a",
      services := [("web", { image := some "img1" }), ("db", { image := some "postgres" })] }
    { version := some "4", name := some "b",
      services := [("web", { image := some "img2" })] }
    "web" { image := some "img2" } (by rfl) (by rfl) (by simp) (by simp)
    (by simp [lookupA_cons])
  exact ⟨c, hc, hweb,
    hpres "db" { image := some "postgres" } (by simp) (by simp [lookupA_cons]), hv, hn⟩

theorem validateList_append_error {β : Type} (chk : β → Except String Unit) (m : String) :
    ∀ (l1 : List β) (e : β) (l2 : List β), (∀ x ∈ l1, chk x = Except.ok ()) →
      chk e = Except.error m → validateList chk (l1 ++ e :: l2) = Except.error m
  | [], e, l2, _, he => by simp [validateList, he]
  | x :: l1, e, l2, h1, he => by
    have hx : chk x = Except.ok () := h1 x (by simp)
    have ih := validateList_append_error chk m l1 e l2 (fun y hy => h1 y (by simp [hy])) he
    simpa [validateList, hx] using ih

theorem validateFile_services_error (p : String) (f : Compose) (m : String)
    (h : validateList (checkService p) f.services = Except.error m) :
    validateFile p f = Except.error m := by
  simp [validateFile, h, Bind.bind, Except.bind]

theorem parseMerge_append (rest : List (String × Compose)) :
    ∀ (pre : List (String × Compose)) (acc : Compose),
      (∀ e ∈ pre, validateFile e.1 e.2 = Except.ok ()) →
      parseMerge (pre ++ rest) acc
        = parseMerge rest (pre.foldl (fun a e => mergeFile a e.2) acc)
  | [], _, _ => rfl
  | (p, f) :: pre, acc, hpre => by
    have hv : validateFile p f = Except.ok () := hpre (p, f) (by simp)
    have ih := parseMerge_append rest pre (mergeFile acc f)
      (fun e he => hpre e (by simp [he]))
    simpa [parseMerge, hv] using ih

/-- C8: validation runs per document before it is merged, and the first
violation aborts the whole pipeline. If, with the earlier documents all
valid, a document contains a service with neither an image nor a build
context (the services before it passing both service checks), the whole run
fails with exactly
`<identifier>: service "<name>" has neither an image nor a build context
specified`, whatever documents follow. -/
theorem validation_failFast (pre : List (String × Compose)) (p : String) (f : Compose)
    (post : List (String × Compose)) (svcs1 : List (String × Service)) (n : String)
    (svc : Service) (svcs2 : List (String × Service))
    (hpre : ∀ e ∈ pre, validateFile e.1 e.2 = Except.ok ())
    (hsv : f.services = svcs1 ++ (n, svc) :: svcs2)
    (h1 : ∀ e ∈ svcs1, checkService p e = Except.ok ())
    (hb : svc.build = none) (hi : svc.image = none) :
    mergeAll (pre ++ (p, f) :: post) =
      Except.error (p ++ ": service \"" ++ n
        ++ "\" has neither an image nor a build context specified") := by
  have hchk : checkService p (n, svc) = Except.error (p ++ ": service \"" ++ n
      ++ "\" has neither an image nor a build context specified") := by
    simp [checkService, hb, hi]
  have hlist := validateList_append_error (checkService p) _ svcs1 (n, svc) svcs2 h1 hchk
  rw [← hsv] at hlist
  have hfile := validateFile_services_error p f _ hlist
  rw [mergeAll, parseMerge_append ((p, f) :: post) pre Compose.new hpre]
  simp [parseMerge, hfile]

/-- Witness for C8 at concrete inputs: a valid first document, then a document
whose second service `web` lacks both image and build; the pipeline fails with
the exact message even though a further document follows. -/
theorem validation_failFast_witness :
    mergeAll
        [("a.yml", { services := [("db", { image := some "postgres" })] }),
         ("b.yml",
          { services := [("ok", { build := some "." }),
              ("web", { network_mode := some "host" })] }),
         ("c.yml", { services := [("ignored", { image := some "x" })] })]
      = Except.error "b.yml: service \"web\" has neither an image nor a build context specified" :=
  validation_failFast
    [("a.yml", { services := [("db", { image := some "postgres" })] })]
    "b.yml"
    { services := [("ok", { build := some "." }), ("web", { network_mode := some "host" })] }
    [("c.yml", { services := [("ignored", { image := some "x" })] })]
    [("ok", { build := some "." })] "web" { network_mode := some "host" } []
    (by intro e he; simp at he; rw [he]; rfl)
    rfl
    (by intro e he; simp at he; rw [he]; rfl)
    rfl rfl

/-- `anyhow` rendering of an error chain — context strings outermost first
around the base message — joined by `": "`. -/
def renderChain (ctx : List String) (msg : String) : String :=
  String.intercalate ": " (ctx ++ [msg])

/-- The interpolation-error reformatting of src/compose.rs lines 163-168: the
collected context chain (the dotted field path) joined by `.`, then a colon
and the base message. -/
def renderInterpErr (ctx : List String) (msg : String) : String :=
  String.intercalate "." ctx ++ ": " ++ msg

/-- The deserialization-failure context attached at src/compose.rs line 186. -/
def deserializeContext (path : String) : String :=
  path ++ " does not follow the Compose specification"

/-- `IndexSet::insert`: append the element unless already present. -/
def insertUnused (s : List String) (x : String) : List String :=
  if x ∈ s then s else s ++ [x]

/-- The unused-path set built by the `serde_ignored` callback of
src/compose.rs lines 181-185: the reported dotted paths folded into an
`IndexSet` — insertion order, duplicates coalesced. -/
def recordUnused (ps : List String) : List String := ps.foldl insertUnused []

/-- Outcome of the whole pipeline: a panic, an error message, or a value. -/
inductive PResult (α : Type) where
  | panicked
  | fail (e : String)
  | ok (a : α)

/-- Loading one document (src/compose.rs lines 106-190) over a pre-parsed
tree: project-name resolution, the value walk, then deserialization into the
typed schema. The deserializer `D` (serde_yaml plus serde_ignored against
types.rs, an external collaborator) is a parameter returning the typed
document together with the unrecognized dotted paths in report order. The
`noInterp` flag is modelled from the spec: the caller
(src/commands/convert.rs line 57) passes `args.no_interpolate` into `parse`,
and when it is set the Value Walker step is skipped entirely, raw scalars
passing through unchanged, while all other steps still run. -/
def loadOne (D : Value → Except String (Compose × List String)) (noInterp : Bool)
    (cfg : Option String) (cwd : String) (path : String) (v : Value) (env : Env) :
    PResult ((String × Compose × List String) × Env) :=
  match setProjectName cfg cwd env v with
  | IResult.panicked => PResult.panicked
  | IResult.err c m => PResult.fail (renderChain c m)
  | IResult.ok (v1, env1) =>
    match (if noInterp then IResult.ok v1 else interpolate env1 v1) with
    | IResult.panicked => PResult.panicked
    | IResult.err c m => PResult.fail (renderInterpErr c m)
    | IResult.ok v2 =>
      match D v2 with
      | Except.error e => PResult.fail (renderChain [deserializeContext path] e)
      | Except.ok (doc, ps) => PResult.ok ((path, doc, recordUnused ps), env1)

/-- The loading loop over all documents, in order, threading the environment
(project-name publications are visible to later documents). -/
def loadAll (D : Value → Except String (Compose × List String)) (noInterp : Bool)
    (cfg : Option String) (cwd : String) :
    List (String × Value) → Env → PResult (List (String × Compose × List String) × Env)
  | [], env => PResult.ok ([], env)
  | (p, v) :: rest, env =>
    match loadOne D noInterp cfg cwd p v env with
    | PResult.panicked => PResult.panicked
    | PResult.fail e => PResult.fail e
    | PResult.ok (entry, env1) =>
      match loadAll D noInterp cfg cwd rest env1 with
      | PResult.panicked => PResult.panicked
      | PResult.fail e => PResult.fail e
      | PResult.ok (entries, env2) => PResult.ok (entry :: entries, env2)

/-- The full `parse` pipeline over pre-parsed trees: load every document,
then validate and merge them in order. -/
def parsePipeline (D : Value → Except String (Compose × List String)) (noInterp : Bool)
    (cfg : Option String) (cwd : String) (docs : List (String × Value)) (env : Env) :
    PResult Compose :=
  match loadAll D noInterp cfg cwd docs env with
  | PResult.panicked => PResult.panicked
  | PResult.fail e => PResult.fail e
  | PResult.ok (entries, _) =>
    match mergeAll (entries.map (fun e => (e.1, e.2.1))) with
    | Except.error e => PResult.fail e
    | Except.ok c => PResult.ok c

/-- Modelled from the spec: the pipeline with the Value Walker step omitted —
project-name resolution, deserialization, validation and merging still run,
raw scalars pass through unchanged. Comparison target for the no-interpolate
behavior. -/
def loadOneNoWalk (D : Value → Except String (Compose × List String))
    (cfg : Option String) (cwd : String) (path : String) (v : Value) (env : Env) :
    PResult ((String × Compose × List String) × Env) :=
  match setProjectName cfg cwd env v with
  | IResult.panicked => PResult.panicked
  | IResult.err c m => PResult.fail (renderChain c m)
  | IResult.ok (v1, env1) =>
    match D v1 with
    | Except.error e => PResult.fail (renderChain [deserializeContext path] e)
    | Except.ok (doc, ps) => PResult.ok ((path, doc, recordUnused ps), env1)

/-- Modelled from the spec: the loading loop without the Value Walker. -/
def loadAllNoWalk (D : Value → Except String (Compose × List String))
    (cfg : Option String) (cwd : String) :
    List (String × Value) → Env → PResult (List (String × Compose × List String) × Env)
  | [], env => PResult.ok ([], env)
  | (p, v) :: rest, env =>
    match loadOneNoWalk D cfg cwd p v env with
    | PResult.panicked => PResult.panicked
    | PResult.fail e => PResult.fail e
    | PResult.ok (entry, env1) =>
      match loadAllNoWalk D cfg cwd rest env1 with
      | PResult.panicked => PResult.panicked
      | PResult.fail e => PResult.fail e
      | PResult.ok (entries, env2) => PResult.ok (entry :: entries, env2)

/-- Modelled from the spec: the pipeline without the Value Walker step, all
other steps (project-name resolution, deserialization, validation, merging)
unchanged. -/
def parsePipelineNoWalk (D : Value → Except String (Compose × List String))
    (cfg : Option String) (cwd : String) (docs : List (String × Value)) (env : Env) :
    PResult Compose :=
  match loadAllNoWalk D cfg cwd docs env with
  | PResult.panicked => PResult.panicked
  | PResult.fail e => PResult.fail e
  | PResult.ok (entries, _) =>
    match mergeAll (entries.map (fun e => (e.1, e.2.1))) with
    | Except.error e => PResult.fail e
    | Except.ok c => PResult.ok c

theorem loadOne_noInterp (D : Value → Except String (Compose × List String))
    (cfg : Option String) (cwd : String) (path : String) (v : Value) (env : Env) :
    loadOne D true cfg cwd path v env = loadOneNoWalk D cfg cwd path v env := by
  cases hsp : setProjectName cfg cwd env v with
  | panicked => simp [loadOne, loadOneNoWalk, hsp]
  | err c m => simp [loadOne, loadOneNoWalk, hsp]
  | ok a =>
    obtain ⟨v1, env1⟩ := a
    simp [loadOne, loadOneNoWalk, hsp]

theorem loadAll_noInterp (D : Value → Except String (Compose × List String))
    (cfg : Option String) (cwd : String) :
    ∀ (docs : List (String × Value)) (env : Env),
      loadAll D true cfg cwd docs env = loadAllNoWalk D cfg cwd docs env
  | [], _ => rfl
  | (p, v) :: rest, env => by
    simp only [loadAll, loadAllNoWalk, loadOne_noInterp D cfg cwd p v env]
    cases loadOneNoWalk D cfg cwd p v env with
    | panicked => rfl
    | fail e => rfl
    | ok a =>
      obtain ⟨entry, env1⟩ := a
      simp only [loadAll_noInterp D cfg cwd rest]

/-- C4: with the no-interpolate flag set, the pipeline coincides with the
pipeline in which the Value Walker step is omitted — string scalars pass
through uninterpolated while project-name resolution, deserialization,
validation and merging all still run, for every deserializer, configuration,
document list and environment. -/
theorem noInterpolate_skips_walker (D : Value → Except String (Compose × List String))
    (cfg : Option String) (cwd : String) (docs : List (String × Value)) (env : Env) :
    parsePipeline D true cfg cwd docs env = parsePipelineNoWalk D cfg cwd docs env := by
  rw [parsePipeline, parsePipelineNoWalk, loadAll_noInterp D cfg cwd docs env]

theorem foldl_insertUnused (ps : List String) :
    ∀ acc : List String, acc.Nodup →
      ∃ t, ps.foldl insertUnused acc = acc ++ t ∧ List.Sublist t ps
        ∧ (acc ++ t).Nodup ∧ (∀ x, x ∈ acc ++ t ↔ x ∈ acc ∨ x ∈ ps) := by
  induction ps with
  | nil =>
    intro acc hnd
    exact ⟨[], by simp, List.nil_sublist [], by simpa, by simp⟩
  | cons a ps ih =>
    intro acc hnd
    by_cases ha : a ∈ acc
    · obtain ⟨t, h1, h2, h3, h4⟩ := ih acc hnd
      refine ⟨t, by simpa [insertUnused, ha] using h1, List.Sublist.cons a h2, h3, ?_⟩
      intro x
      constructor
      · intro hx
        rcases (h4 x).mp hx with h | h
        · exact Or.inl h
        · exact Or.inr (List.mem_cons_of_mem a h)
      · intro hx
        rcases hx with h | h
        · exact (h4 x).mpr (Or.inl h)
        · rcases List.mem_cons.mp h with rfl | h
          · exact (h4 x).mpr (Or.inl ha)
          · exact (h4 x).mpr (Or.inr h)
    · have hnd2 : (acc ++ [a]).Nodup := by
        rw [List.nodup_append]
        refine ⟨hnd, List.nodup_singleton a, ?_⟩
        intro x hx hx2
        rw [List.mem_singleton] at hx2
        subst hx2
        exact ha hx
      obtain ⟨t, h1, h2, h3, h4⟩ := ih (acc ++ [a]) hnd2
      have h1a : List.foldl insertUnused acc (a :: ps) = (acc ++ [a]) ++ t := by
        simpa [insertUnused, ha] using h1
      refine ⟨a :: t, ?_, List.Sublist.cons₂ a h2, ?_, ?_⟩
      · rw [h1a, List.append_assoc]
        rfl
      · rw [List.append_assoc] at h3
        exact h3
      · intro x
        have h5 := h4 x
        simp only [List.mem_append, List.mem_cons, List.mem_singleton] at h5 ⊢
        tauto

/-- C9 (amended): during deserialization of each interpolated tree the
reported unrecognized dotted paths are recorded into an insertion-ordered set
with duplicates coalesced, and a deserialization failure is fatal for the
pipeline with the context message
`<identifier> does not follow the Compose specification`. -/
theorem deserialize_unused_spec :
    (∀ ps : List String, (recordUnused ps).Nodup
      ∧ List.Sublist (recordUnused ps) ps
      ∧ (∀ x, x ∈ recordUnused ps ↔ x ∈ ps))
    ∧ (∀ (D : Value → Except String (Compose × List String)) (cfg : Option String)
        (cwd path : String) (v : Value) (env : Env) (v1 : Value) (env1 : Env)
        (v2 : Value) (e : String) (rest : List (String × Value)),
        setProjectName cfg cwd env v = IResult.ok (v1, env1) →
        interpolate env1 v1 = IResult.ok v2 →
        D v2 = Except.error e →
        parsePipeline D false cfg cwd ((path, v) :: rest) env
          = PResult.fail (renderChain [deserializeContext path] e))
    ∧ (∀ (D : Value → Except String (Compose × List String)) (cfg : Option String)
        (cwd path : String) (v : Value) (env : Env) (v1 : Value) (env1 : Env)
        (v2 : Value) (doc : Compose) (ps : List String),
        setProjectName cfg cwd env v = IResult.ok (v1, env1) →
        interpolate env1 v1 = IResult.ok v2 →
        D v2 = Except.ok (doc, ps) →
        loadOne D false cfg cwd path v env
          = PResult.ok ((path, doc, recordUnused ps), env1)) := by
  refine ⟨?_, ?_, ?_⟩
  · intro ps
    obtain ⟨t, h1, h2, h3, h4⟩ := foldl_insertUnused ps [] (List.nodup_nil)
    have ht : recordUnused ps = t := by
      rw [recordUnused, h1]
      rfl
    rw [ht]
    refine ⟨by simpa using h3, h2, ?_⟩
    intro x
    have := h4 x
    simpa using this
  · intro D cfg cwd path v env v1 env1 v2 e rest h1 h2 h3
    simp [parsePipeline, loadAll, loadOne, h1, h2, h3]
  · intro D cfg cwd path v env v1 env1 v2 doc ps h1 h2 h3
    simp [loadOne, h1, h2, h3]

/-- Witness for C9 (amended) at concrete inputs: a deserializer failing with
`boom` aborts the pipeline with the `Compose specification` context; a
succeeding one records the reported paths `["a", "b", "a"]` deduplicated. -/
theorem deserialize_unused_spec_witness :
    parsePipeline (fun _ => Except.error "boom") false (some "p") "dir"
        [("f.yml", Value.mapping [])] envEmpty
      = PResult.fail (renderChain [deserializeContext "f.yml"] "boom")
    ∧ loadOne (fun _ => Except.ok (Compose.new, ["a", "b", "a"])) false (some "p") "dir"
        "f.yml" (Value.mapping []) envEmpty
      = PResult.ok (("f.yml", Compose.new, recordUnused ["a", "b", "a"]), envEmpty)
    ∧ recordUnused ["a", "b", "a"] = ["a", "b"] := by
  refine ⟨?_, ?_, ?_⟩
  · exact deserialize_unused_spec.2.1 (fun _ => Except.error "boom") (some "p") "dir" "f.yml"
      (Value.mapping []) envEmpty (Value.mapping [(Value.string "name", Value.string "p")])
      envEmpty (Value.mapping [(Value.string "name", Value.string "p")]) "boom" [] rfl rfl rfl
  · exact deserialize_unused_spec.2.2 (fun _ => Except.ok (Compose.new, ["a", "b", "a"]))
      (some "p") "dir" "f.yml" (Value.mapping []) envEmpty
      (Value.mapping [(Value.string "name", Value.string "p")]) envEmpty
      (Value.mapping [(Value.string "name", Value.string "p")]) Compose.new ["a", "b", "a"]
      rfl rfl rfl
  · rfl

/-- Counterexample to C9 as stated: the context attached to a
deserialization failure is `<identifier> does not follow the Compose
specification` (src/compose.rs line 186), not the claimed
`<identifier> does not follow the specification`. -/
theorem deserializeContext_differs :
    deserializeContext "compose.yml" ≠ "compose.yml does not follow the specification" := by
  decide
